import Mathlib

/-!
Verification of the uni-burn-bot event-scanning and statistics engine.

The definitions below are a shallow embedding of `src/ethereumMonitor.ts`
(class `EthereumMonitor` and class `TransactionDatabase`) and of the insert
path in `src/bot.ts`.  JavaScript numbers that hold block heights are
modelled as `Nat`/`Int`, `bigint` token amounts as `Int`, `Date` values as
`Int` milliseconds since the epoch (ISO-8601 strings compare in the same
order as the instants they denote), and fallible RPC calls as `Option`
results.  `Math.floor` division is `Int.fdiv`.
-/

namespace UniBurnBot

/-- `Transfer(address,address,uint256)` event signature constant from
`ethereumMonitor.ts` line 5. -/
def TRANSFER_EVENT_SIGNATURE : String :=
  "0xddf252ad1be2c89b69c2b068fc378daa952ba7f163c4a11628f55a4df523b3ef"

/-- A raw log as returned by `web3.eth.getPastLogs`.  `data` is the payload
already passed through `BigInt(log.data)`: `none` models a malformed payload
whose conversion throws (the `try`/`catch` in `parseTransferEvent` turns that
into a `null` result).  `transactionHash`/`blockNumber` are `Option` because
the scanner's type guard (line 76) checks their presence. -/
structure RawLog where
  topics : List String
  data : Option Int
  transactionHash : Option String
  blockNumber : Option Nat
deriving DecidableEq, Repr

/-- Decoded transfer event: `{ from, to, value }`. -/
structure DecodedTransfer where
  sender : String
  recipient : String
  value : Int
deriving DecidableEq, Repr

/-- `'0x' + topic.slice(-40)` — the low 20 bytes of an indexed address topic
(`toChecksumAddress` normalisation is abstracted as the identity). -/
def addressFromTopic (s : String) : String :=
  "0x" ++ (s.drop (s.length - 40))

/-- `EthereumMonitor.parseTransferEvent` (lines 36-51): reject logs whose
topic count is not 3 or whose first topic is not the transfer signature,
decode the two address topics and the payload value, and return `none` when
the payload fails to convert. -/
def parseTransferEvent (log : RawLog) : Option DecodedTransfer :=
  if log.topics.length ≠ 3 ∨ log.topics.head? ≠ some TRANSFER_EVENT_SIGNATURE then
    none
  else
    match log.data with
    | none => none
    | some v =>
        some { sender := addressFromTopic (log.topics.getD 1 "")
               recipient := addressFromTopic (log.topics.getD 2 "")
               value := v }

/-- Transaction object returned by `web3.eth.getTransaction`. -/
structure RawTx where
  sender : String
  gasPrice : Option Int
deriving DecidableEq, Repr

/-- Receipt status union: booleans, numbers and bigints all occur
(`ethereumMonitor.ts` lines 102-107). -/
inductive ReceiptStatus where
  | boolStatus (b : Bool)
  | numStatus (n : Int)
deriving DecidableEq, Repr

/-- Receipt object returned by `web3.eth.getTransactionReceipt`. -/
structure RawReceipt where
  status : ReceiptStatus
  gasUsed : Nat
deriving DecidableEq, Repr

/-- Block object returned by `web3.eth.getBlock` (timestamp in seconds). -/
structure RawBlock where
  timestamp : Int
deriving DecidableEq, Repr

/-- The ledger gateway: each primitive may fail or return empty (`none`). -/
structure Gateway where
  currentBlock : Nat
  getPastLogs : Nat → Nat → Option (List RawLog)
  getTransaction : String → Option RawTx
  getTransactionReceipt : String → Option RawReceipt
  getBlock : Nat → Option RawBlock

/-- The record the scanner builds for each surviving candidate
(`TokenTransfer` in `types.ts`, with `timestamp` in ms). -/
structure TokenTransfer where
  hash : String
  blockNumber : Nat
  tokenAddress : String
  sender : String
  recipient : String
  value : Int
  timestamp : Int
  gasUsed : Nat
  gasPrice : Option Int
  status : Int
  initiatorAddress : String
deriving DecidableEq, Repr

/-- Status normalisation (lines 101-107): booleans map to 1/0, numeric
statuses are passed through. -/
def statusOf : ReceiptStatus → Int
  | .boolStatus b => if b then 1 else 0
  | .numStatus n => n

/-- Monitor configuration: the fields set in the `EthereumMonitor`
constructor. -/
structure MonitorConfig where
  tokenAddress : String
  recipientAddress : String
  targetAmount : Int

/-- The loop body of `scanBlocksForTransfers` (lines 74-125) for a single
log: the type guard, decode, exact-amount filter and enrichment, returning
the record pushed for this log (or `none` when the log is skipped). -/
def processLog (cfg : MonitorConfig) (gw : Gateway) (log : RawLog) :
    Option TokenTransfer :=
  match log.transactionHash, log.blockNumber with
  | some txHash, some blockNum =>
      match parseTransferEvent log with
      | none => none
      | some tr =>
          if tr.value ≠ cfg.targetAmount then none
          else
            match gw.getTransaction txHash, gw.getTransactionReceipt txHash,
                gw.getBlock blockNum with
            | some tx, some receipt, some block =>
                some { hash := txHash
                       blockNumber := blockNum
                       tokenAddress := cfg.tokenAddress
                       sender := tr.sender
                       recipient := tr.recipient
                       value := tr.value
                       timestamp := block.timestamp * 1000
                       gasUsed := receipt.gasUsed
                       gasPrice := tx.gasPrice
                       status := statusOf receipt.status
                       initiatorAddress := tx.sender }
            | _, _, _ => none
  | _, _ => none

/-- The `for (const log of logs)` loop of `scanBlocksForTransfers`
(lines 74-125): each surviving log pushes its record onto the
accumulator. -/
def scanLoop (cfg : MonitorConfig) (gw : Gateway) :
    List RawLog → List TokenTransfer → List TokenTransfer
  | [], acc => acc
  | log :: rest, acc =>
      match processLog cfg gw log with
      | none => scanLoop cfg gw rest acc
      | some r => scanLoop cfg gw rest (acc ++ [r])

/-- `EthereumMonitor.scanBlocksForTransfers` (lines 53-131): fetch the logs
for the window; on a logs-query failure the outer `catch` logs the error and
the (empty) accumulator is returned.  Otherwise the loop pushes one record
per surviving log. -/
def scanBlocksForTransfers (cfg : MonitorConfig) (gw : Gateway)
    (startBlock endBlock : Nat) : List TokenTransfer :=
  match gw.getPastLogs startBlock endBlock with
  | none => []
  | some logs => scanLoop cfg gw logs []

/-- `EthereumMonitor.checkForNewTransfers` (lines 133-153), with the cursor
`lastCheckedBlock` passed and returned explicitly.  On the first run the
window is the last 100 blocks (`Math.max(0, current - 100)` is `Nat`
truncated subtraction) and the cursor is set to the current height before
the emptiness check; afterwards the window is `[last+1, current]`, the call
returns early with the cursor untouched when the chain has not advanced, and
the cursor is set to the current height after every performed scan. -/
def checkForNewTransfers (cfg : MonitorConfig) (gw : Gateway)
    (lastCheckedBlock : Option Nat) : List TokenTransfer × Option Nat :=
  let currentBlock := gw.currentBlock
  match lastCheckedBlock with
  | none =>
      let startBlock := currentBlock - 100
      if startBlock > currentBlock then ([], some currentBlock)
      else (scanBlocksForTransfers cfg gw startBlock currentBlock, some currentBlock)
  | some last =>
      let startBlock := last + 1
      if startBlock > currentBlock then ([], some last)
      else (scanBlocksForTransfers cfg gw startBlock currentBlock, some currentBlock)

/-- Cursor/window bookkeeping of one `checkForNewTransfers` call, given the
height the gateway reports for that tick: the new cursor together with the
window scanned (if any).  `pollStep_models_checkForNewTransfers` ties this
to `checkForNewTransfers`. -/
def pollStep (st : Option Nat) (h : Nat) : Option Nat × Option (Nat × Nat) :=
  match st with
  | none =>
      let s := h - 100
      if s > h then (some h, none) else (some h, some (s, h))
  | some last =>
      let s := last + 1
      if s > h then (some last, none) else (some h, some (s, h))

/-- Run `pollStep` over a sequence of reported heights, collecting the
scanned windows in order. -/
def pollTrace (st : Option Nat) : List Nat → Option Nat × List (Nat × Nat)
  | [] => (st, [])
  | h :: hs =>
      let step := pollStep st h
      let rest := pollTrace step.1 hs
      (rest.1, match step.2 with
        | none => rest.2
        | some w => w :: rest.2)

/-!
## Historical locator (`EthereumMonitor.getBlockNumberForDate`, lines 155-198)

The `while (low <= high)` loop is written with an explicit iteration budget
(`fuel`); the caller passes `(high + 1 - low).toNat`, which is exactly the
largest possible number of iterations since every iteration shrinks
`high + 1 - low` by at least one.  `searchGo_fuel_stable` certifies that any
budget at least that large yields the same result, so the budget never cuts
the loop short.  Probing heights are `Int` because `high` can reach `-1`.
-/

/-- Block lookups as seen by the binary search: `getBlock h` is `some` of
the block timestamp when the lookup succeeds, `none` when it throws
(e.g. the height does not exist). -/
abbrev LocatorEnv : Type := Int → Option Int

/-- The binary-search loop (lines 175-195).  A succeeding probe moves
`high` down (recording `mid` as the best block so far) when its timestamp
already reaches the target, and moves `low` up otherwise.  A failing probe
moves `low` up when `mid` is below the initial estimate and moves `high`
down otherwise (the `catch` branch, lines 187-194). -/
def searchGo (env : LocatorEnv) (target est : Int) :
    Nat → Int → Int → Int → Int
  | 0, _, _, best => best
  | fuel + 1, low, high, best =>
      if low ≤ high then
        let mid := (low + high).fdiv 2
        match env mid with
        | some blockTimestamp =>
            if blockTimestamp ≥ target then searchGo env target est fuel low (mid - 1) mid
            else searchGo env target est fuel (mid + 1) high best
        | none =>
            if mid < est then searchGo env target est fuel (mid + 1) high best
            else searchGo env target est fuel low (mid - 1) best
      else best

/-- Modelled from the spec: the same loop, but with every failing probe
treated as "too high" (`high := mid - 1`) regardless of its position, as
§4.3 step 3 describes.  Used only to compare against `searchGo`. -/
def specSearchGo (env : LocatorEnv) (target : Int) :
    Nat → Int → Int → Int → Int
  | 0, _, _, best => best
  | fuel + 1, low, high, best =>
      if low ≤ high then
        let mid := (low + high).fdiv 2
        match env mid with
        | some blockTimestamp =>
            if blockTimestamp ≥ target then specSearchGo env target fuel low (mid - 1) mid
            else specSearchGo env target fuel (mid + 1) high best
        | none => specSearchGo env target fuel low (mid - 1) best
      else best

/-- `EthereumMonitor.getBlockNumberForDate` (lines 155-198) with the target
time already converted to a Unix-seconds timestamp (`Math.floor(date/1000)`
is monotone, so the claims about target times transfer unchanged).  The
lookup of the current block's timestamp is un-caught in the source, so its
failure fails the whole call (`none`). -/
def getBlockNumberForDate (env : LocatorEnv) (currentBlock : Nat)
    (targetTimestamp : Int) : Option Int :=
  match env (currentBlock : Int) with
  | none => none
  | some currentTimestamp =>
      let secondsPerBlock : Int := 12
      let secondsDiff := currentTimestamp - targetTimestamp
      let estimatedBlocksBack := secondsDiff.fdiv secondsPerBlock
      let estimatedBlock := max 0 ((currentBlock : Int) - estimatedBlocksBack)
      let low := max 0 (estimatedBlock - 1000)
      let high := min (currentBlock : Int) (estimatedBlock + 1000)
      some (searchGo env targetTimestamp estimatedBlock
        (high + 1 - low).toNat low high estimatedBlock)

/-- The initial estimate of `getBlockNumberForDate` (lines 164-168). -/
def locatorEstimate (currentBlock : Nat) (currentTimestamp targetTimestamp : Int) : Int :=
  max 0 ((currentBlock : Int) - (currentTimestamp - targetTimestamp).fdiv 12)

/-- Lower bound of the search window (line 171). -/
def locatorLow (currentBlock : Nat) (currentTimestamp targetTimestamp : Int) : Int :=
  max 0 (locatorEstimate currentBlock currentTimestamp targetTimestamp - 1000)

/-- Upper bound of the search window (line 172). -/
def locatorHigh (currentBlock : Nat) (currentTimestamp targetTimestamp : Int) : Int :=
  min (currentBlock : Int) (locatorEstimate currentBlock currentTimestamp targetTimestamp + 1000)

/-!
## Record store (`TransactionDatabase`, `ethereumMonitor.ts` lines 218-689)

A row of `token_transfers`.  `timestamp` is the stored ISO-8601 string,
modelled as the instant in milliseconds it denotes (ISO strings compare in
the same order).  `burner_address` is nullable.
-/

structure DbRow where
  txHash : String
  blockNumber : Nat
  tokenAddress : String
  fromAddress : String
  toAddress : String
  burnerAddress : Option String
  value : Int
  timestamp : Int
  gasUsed : Option Nat
  gasPrice : Option Int
deriving DecidableEq, Repr

/-- The row `TransactionDatabase.addTransfer` (lines 371-391) inserts for a
`TokenTransfer` (the column was renamed `initiator_address` →
`burner_address` by migration 1; the monitor fills it from the transaction
sender). -/
def rowOfTransfer (t : TokenTransfer) : DbRow :=
  { txHash := t.hash
    blockNumber := t.blockNumber
    tokenAddress := t.tokenAddress
    fromAddress := t.sender
    toAddress := t.recipient
    burnerAddress := some t.initiatorAddress
    value := t.value
    timestamp := t.timestamp
    gasUsed := some t.gasUsed
    gasPrice := t.gasPrice }

/-- The store: rows in insertion order. -/
abbrev Store : Type := List DbRow

/-- `TransactionDatabase.transferExists` (lines 365-369). -/
def transferExists (s : Store) (txHash : String) : Bool :=
  s.any (fun r => r.txHash = txHash)

/-- `TransactionDatabase.addTransfer` (lines 371-391): a plain `INSERT`;
the `tx_hash UNIQUE` constraint makes a duplicate insert raise a SQLite
constraint error, modelled as `Except.error`. -/
def addTransfer (s : Store) (t : TokenTransfer) : Except String Store :=
  if transferExists s t.hash then
    .error "UNIQUE constraint failed: token_transfers.tx_hash"
  else
    .ok (s ++ [rowOfTransfer t])

/-- The insert path of `bot.ts` (lines 160-166):
`if (!db.transferExists(transfer.hash)) db.addTransfer(transfer)` —
check-then-skip, so a duplicate is a no-op rather than an error. -/
def storeTransferIfNew (s : Store) (t : TokenTransfer) : Store :=
  if transferExists s t.hash then s else s ++ [rowOfTransfer t]

/-- Number of rows carrying a given `tx_hash`. -/
def rowCountForHash (s : Store) (txHash : String) : Nat :=
  (s.filter (fun r => r.txHash = txHash)).length

/-- `COUNT(*) ... WHERE burner_address = ?` (lines 435-441). -/
def burnerCount (s : Store) (b : String) : Nat :=
  (s.filter (fun r => r.burnerAddress = some b)).length

/-- The distinct non-null burner addresses of the store, in first-occurrence
order (`GROUP BY burner_address ... WHERE burner_address IS NOT NULL`). -/
def distinctBurners (s : Store) : List String :=
  (s.filterMap (fun r => r.burnerAddress)).dedup

/-- `COUNT(DISTINCT burner_address) ... WHERE burner_address IS NOT NULL`
(lines 444-450 and 566-574). -/
def getTotalBurners (s : Store) : Nat :=
  (distinctBurners s).length

/-- The `burner_counts` CTE of `getBurnerStats` (lines 453-461): one
`(address, tx_count)` pair per distinct non-null burner. -/
def burnerCounts (s : Store) : List (String × Nat) :=
  (distinctBurners s).map (fun a => (a, burnerCount s a))

/-- The rank query of `getBurnerStats` (lines 453-467):
`COUNT(*) + 1` over CTE rows whose `tx_count` exceeds the scalar subquery's
value for the requested address; when the subquery finds no row it yields
SQL `NULL` and the comparison filters out every row, so the rank is 1. -/
def getBurnerRank (s : Store) (b : String) : Nat :=
  match (burnerCounts s).find? (fun p => p.1 = b) with
  | none => 1
  | some p => ((burnerCounts s).filter (fun q => p.2 < q.2)).length + 1

/-- `TransactionDatabase.getBurnerStats` (lines 433-470):
`(count, rank, totalBurners)`. -/
def getBurnerStats (s : Store) (b : String) : Nat × Nat × Nat :=
  (burnerCount s b, getBurnerRank s b, getTotalBurners s)

/-- Strict composite order `(block_number, timestamp)` used by the
previous-record lookup. -/
def rowLexLt (a b : DbRow) : Prop :=
  a.blockNumber < b.blockNumber ∨
    (a.blockNumber = b.blockNumber ∧ a.timestamp < b.timestamp)

instance : DecidableRel rowLexLt := fun a b => by
  unfold rowLexLt; infer_instance

/-- `ORDER BY block_number DESC, timestamp DESC LIMIT 1`: the head of the
sort, i.e. a row that no other candidate strictly exceeds in the composite
order (among full composite ties SQLite returns an arbitrary one; every such
tie carries the same timestamp, which is all the caller reads). -/
def selectNewest : List DbRow → Option DbRow
  | [] => none
  | r :: rs =>
      match selectNewest rs with
      | none => some r
      | some m => if rowLexLt r m then some m else some r

/-- `TransactionDatabase.getPreviousTransferTimestamp` (lines 496-510).
The pivot block number comes from the stored row with the requested hash
(scalar subquery — SQL `NULL` when absent, which empties the result), the
pivot timestamp is the caller-supplied parameter. -/
def getPreviousTransferTimestamp (s : Store) (currentHash : String)
    (currentTimestamp : Int) : Option Int :=
  match s.find? (fun r => r.txHash = currentHash) with
  | none => none
  | some pivot =>
      let candidates := s.filter (fun r =>
        r.txHash ≠ currentHash ∧
          (r.blockNumber < pivot.blockNumber ∨
            (r.blockNumber = pivot.blockNumber ∧ r.timestamp < currentTimestamp)))
      (selectNewest candidates).map (fun r => r.timestamp)

/-- `ORDER BY block_number ASC` of the timestamp queries (lines 514-518):
stable sort of the rows by block number (SQLite leaves the order of equal
keys unspecified; the model picks the stable one). -/
def sortByBlock (s : Store) : Store :=
  s.insertionSort (fun a b => a.blockNumber ≤ b.blockNumber)

/-- The accumulation loop of `getAverageTimeBetweenTransfers` (lines
525-530): `totalDiff += rows[i] - rows[i-1]` over consecutive pairs. -/
def sumConsecutiveDiffs : List Int → Int
  | a :: b :: rest => (b - a) + sumConsecutiveDiffs (b :: rest)
  | _ => 0

/-- `TransactionDatabase.getAverageTimeBetweenTransfers` (lines 512-533):
`null` below two rows, otherwise the summed consecutive difference of the
block-ordered timestamps divided by `rows.length - 1`, in milliseconds. -/
def getAverageTimeBetweenTransfers (s : Store) : Option ℚ :=
  let rows := (sortByBlock s).map (fun r => r.timestamp)
  if rows.length < 2 then none
  else some ((sumConsecutiveDiffs rows : ℚ) / ((rows.length : ℚ) - 1))

/-!
## Daily 7-day moving average (`getDaily7DayMovingAverage`, lines 581-684)

Calendar arithmetic is modelled in UTC: `setHours(0,0,0,0)` floors to a
multiple of `msPerDay`, `setHours(23,59,59,999)` is the day start plus
`msPerDay - 1`, and `setDate(getDate() ± k)` adds `± k * msPerDay`.
`Math.ceil(a / b)` for positive `b` is `-((-a).fdiv b)`.  The function takes
the stored timestamps already in `ORDER BY block_number ASC, timestamp ASC`
order (the shape the query returns) and the current wall-clock time `now`
(`new Date()`), both in milliseconds.
-/

def msPerHour : Int := 3600000

def msPerDay : Int := 86400000

/-- `setHours(0, 0, 0, 0)` on a millisecond instant. -/
def startOfDay (t : Int) : Int := (t.fdiv msPerDay) * msPerDay

/-- `setHours(23, 59, 59, 999)` on a millisecond instant. -/
def endOfDayOf (t : Int) : Int := startOfDay t + msPerDay - 1

/-- `Math.ceil(a / b)` for positive `b`. -/
def ceilDiv (a b : Int) : Int := -((-a).fdiv b)

/-- Consecutive differences `transfers[j] - transfers[j-1]` (the
`diffsInWindow` loop, lines 666-669). -/
def consecutiveDiffs : List Int → List Int
  | a :: b :: rest => (b - a) :: consecutiveDiffs (b :: rest)
  | _ => []

/-- The per-day body of the series loop (lines 633-681) for the day whose
midnight is `targetDate`: `null` when fewer than two records exist at or
before end of day, otherwise restrict to the window
`[startOfDay (endOfDay - 7 days), endOfDay]`, `null` again below two
records, otherwise the average consecutive gap in hours. -/
def dayEntry (transfers : List Int) (targetDate : Int) : Option ℚ :=
  let endOfDay := endOfDayOf targetDate
  let transfersUpToDate := transfers.filter (fun t => t ≤ endOfDay)
  if transfersUpToDate.length < 2 then none
  else
    let windowStart := startOfDay (endOfDay - 7 * msPerDay)
    let transfersInWindow := transfersUpToDate.filter (fun t => windowStart ≤ t)
    if transfersInWindow.length < 2 then none
    else
      let diffsInWindow := consecutiveDiffs transfersInWindow
      if diffsInWindow.length = 0 then none
      else
        let avgMs : ℚ := (diffsInWindow.sum : ℚ) / (diffsInWindow.length : ℚ)
        some (avgMs / (msPerHour : ℚ))

/-- The day-generation loop (lines 633-681): `n` iterations remain, `i` is
the current index; the loop breaks as soon as a day's end passes `today`. -/
def dailyLoop (transfers : List Int) (today startDate : Int) :
    Nat → Int → List (Int × Option ℚ)
  | 0, _ => []
  | n + 1, i =>
      let targetDate := startDate + i * msPerDay
      if endOfDayOf targetDate > today then []
      else (targetDate, dayEntry transfers targetDate) ::
        dailyLoop transfers today startDate n (i + 1)

/-- `TransactionDatabase.getDaily7DayMovingAverage` (lines 581-684). -/
def getDaily7DayMovingAverage (transfers : List Int) (now : Int)
    (maxDays : Int := 30) : List (Int × Option ℚ) :=
  if transfers.length < 2 then []
  else
    let firstDate := startOfDay (transfers.headD 0)
    let today := endOfDayOf now
    let daysDiff := ceilDiv (today - firstDate) msPerDay
    let startDate :=
      if daysDiff < maxDays then firstDate
      else startOfDay (today - (maxDays - 1) * msPerDay)
    let actualDays := min (daysDiff + 1) maxDays
    if actualDays ≤ 0 then []
    else dailyLoop transfers today startDate actualDays.toNat 0

/-- Modelled from the spec (§4.4, claim C7): the same per-day value but with
the window restriction being "records within the trailing 7-day window
ending at end-of-day `d`", i.e. `endOfDay - 7 days ≤ t ≤ endOfDay`.  Used
only to compare against `dayEntry`. -/
def specDayEntry (transfers : List Int) (targetDate : Int) : Option ℚ :=
  let endOfDay := endOfDayOf targetDate
  let transfersUpToDate := transfers.filter (fun t => t ≤ endOfDay)
  if transfersUpToDate.length < 2 then none
  else
    let transfersInWindow := transfersUpToDate.filter
      (fun t => endOfDay - 7 * msPerDay ≤ t)
    if transfersInWindow.length < 2 then none
    else
      let diffsInWindow := consecutiveDiffs transfersInWindow
      if diffsInWindow.length = 0 then none
      else
        let avgMs : ℚ := (diffsInWindow.sum : ℚ) / (diffsInWindow.length : ℚ)
        some (avgMs / (msPerHour : ℚ))

/-!
## Concrete instances used by witnesses and counterexamples
-/

/-- Example monitor configuration: target amount 5. -/
def exCfg : MonitorConfig :=
  { tokenAddress := "0xTOK", recipientAddress := "0xREC", targetAmount := 5 }

/-- A well-shaped log whose decoded value matches the target amount. -/
def exLogOk : RawLog :=
  { topics := [TRANSFER_EVENT_SIGNATURE, "0xtopicFrom", "0xtopicTo"]
    data := some 5
    transactionHash := some "0xaaa"
    blockNumber := some 7 }

/-- A well-shaped log whose decoded value differs from the target amount. -/
def exLogWrongAmount : RawLog :=
  { topics := [TRANSFER_EVENT_SIGNATURE, "0xtopicFrom", "0xtopicTo"]
    data := some 6
    transactionHash := some "0xbbb"
    blockNumber := some 7 }

/-- Gateway returning the two example logs, with enrichment data for both. -/
def exGateway : Gateway :=
  { currentBlock := 20
    getPastLogs := fun _ _ => some [exLogOk, exLogWrongAmount]
    getTransaction := fun _ => some { sender := "0xinit", gasPrice := some 3 }
    getTransactionReceipt := fun _ => some { status := .boolStatus true, gasUsed := 21000 }
    getBlock := fun _ => some { timestamp := 1700000000 } }

/-- Gateway whose logs query always fails (connectivity error in scan
step 1). -/
def exGatewayLogsFail : Gateway :=
  { currentBlock := 20
    getPastLogs := fun _ _ => none
    getTransaction := fun _ => none
    getTransactionReceipt := fun _ => none
    getBlock := fun _ => none }

/-- An example transfer record for the idempotent-insert claim. -/
def exTransfer : TokenTransfer :=
  { hash := "0xdead"
    blockNumber := 11
    tokenAddress := "0xTOK"
    sender := "0xfrom"
    recipient := "0xREC"
    value := 5
    timestamp := 1700000000000
    gasUsed := 21000
    gasPrice := some 3
    status := 1
    initiatorAddress := "0xinit" }

/-- A store row with the given hash, block, burner and timestamp. -/
def mkRow (h : String) (blk : Nat) (burner : Option String) (ts : Int) : DbRow :=
  { txHash := h, blockNumber := blk, tokenAddress := "0xTOK"
    fromAddress := "0xfrom", toAddress := "0xREC", burnerAddress := burner
    value := 5, timestamp := ts, gasUsed := some 21000, gasPrice := some 3 }

/-- Store with burner counts A:2, B:2, C:1 (tie-ranking example). -/
def exRowsTie : Store :=
  [mkRow "0x1" 1 (some "A") 1000, mkRow "0x2" 2 (some "A") 2000,
   mkRow "0x3" 3 (some "B") 3000, mkRow "0x4" 4 (some "B") 4000,
   mkRow "0x5" 5 (some "C") 5000]

/-- Store with burner counts A:3, B:2, C:1 (dense-ranking example). -/
def exRowsDense : Store :=
  [mkRow "0x1" 1 (some "A") 1000, mkRow "0x2" 2 (some "A") 2000,
   mkRow "0x3" 3 (some "A") 3000, mkRow "0x4" 4 (some "B") 4000,
   mkRow "0x5" 5 (some "B") 5000, mkRow "0x6" 6 (some "C") 6000]

/-- Store with records at t = 0h, 24h, 72h (blocks 1, 2, 3). -/
def exRowsAvg : Store :=
  [mkRow "0x1" 1 (some "A") 0, mkRow "0x2" 2 (some "A") 86400000,
   mkRow "0x3" 3 (some "A") 259200000]

/-- Store for the previous-record lookup: two rows share block 5 and two
rows share timestamp 2000 at different blocks. -/
def exRowsPrev : Store :=
  [mkRow "0xp1" 3 (some "A") 2000, mkRow "0xp2" 5 (some "A") 2000,
   mkRow "0xp3" 5 (some "A") 2500, mkRow "0xp4" 9 (some "A") 9000]

/-- Timestamps for the moving-average counterexample: day 0 noon and
day 7 noon (UTC, in ms). -/
def exDailyTs : List Int := [43200000, 648000000]

/-- `now` for the moving-average counterexample: day 7, 20:00 UTC. -/
def exDailyNow : Int := 676800000

/-- Block-timestamp profile with a large jump: `ts h = h` up to height 3000
and `ts h = 1000000` above (non-decreasing). -/
def exTsGap : Int → Int := fun h => if h ≤ 3000 then h else 1000000

/-- Locator environment over `exTsGap`: heights 0-5000 exist. -/
def exEnvGap : LocatorEnv := fun h =>
  if 0 ≤ h ∧ h ≤ 5000 then some (exTsGap h) else none

/-- Small locator environment: heights 0-10 exist with `ts h = h`. -/
def exEnvSmall : LocatorEnv := fun h =>
  if 0 ≤ h ∧ h ≤ 10 then some h else none

/-- Locator environment where every height exists with `ts h = h`. -/
def exEnvTotal : LocatorEnv := fun h => some h

/-- Locator environment where heights 0-2 are missing and heights 3-4 have
timestamp 100. -/
def exEnvMissing : LocatorEnv := fun h =>
  if 3 ≤ h ∧ h ≤ 4 then some 100 else none

/-!
## Predicates used to state the claims
-/

/-- "Transaction/receipt/block enrichment succeeds" for a log: the log
carries a transaction hash and block number and all three lookups return a
value (claim C1). -/
def enrichmentOk (gw : Gateway) (log : RawLog) : Prop :=
  ∃ h b, log.transactionHash = some h ∧ log.blockNumber = some b ∧
    (gw.getTransaction h).isSome ∧ (gw.getTransactionReceipt h).isSome ∧
    (gw.getBlock b).isSome

/-- Reflexive composite order `(block_number, timestamp)` (claim C8). -/
def rowLexLe (a b : DbRow) : Prop :=
  a.blockNumber < b.blockNumber ∨
    (a.blockNumber = b.blockNumber ∧ a.timestamp ≤ b.timestamp)

/-!
## Helper lemmas
-/

theorem scanLoop_eq_filterMap (cfg : MonitorConfig) (gw : Gateway) :
    ∀ (logs : List RawLog) (acc : List TokenTransfer),
      scanLoop cfg gw logs acc = acc ++ logs.filterMap (processLog cfg gw)
  | [], acc => by simp [scanLoop]
  | log :: rest, acc => by
      cases hfx : processLog cfg gw log <;>
        simp [scanLoop, List.filterMap_cons, hfx,
          scanLoop_eq_filterMap cfg gw rest]

/-- The scanner's per-log decision, characterised: a log yields a record
exactly when it passes the presence guard, decodes, matches the target
amount exactly, and enriches. -/
theorem processLog_isSome_iff (cfg : MonitorConfig) (gw : Gateway) (log : RawLog) :
    (processLog cfg gw log).isSome ↔
      ((∃ t, parseTransferEvent log = some t ∧ t.value = cfg.targetAmount)
        ∧ enrichmentOk gw log) := by
  unfold processLog enrichmentOk
  cases htx : log.transactionHash with
  | none => simp [htx]
  | some h =>
    cases hbn : log.blockNumber with
    | none => simp [htx, hbn]
    | some b =>
      cases hp : parseTransferEvent log with
      | none => simp [hp]
      | some t =>
        by_cases hv : t.value = cfg.targetAmount
        · cases hT : gw.getTransaction h <;>
            cases hR : gw.getTransactionReceipt h <;>
            cases hB : gw.getBlock b <;>
            simp [hp, hv, hT, hR, hB]
        · simp [hp, hv]

/-- A decoded transfer whose value differs from the target is skipped. -/
theorem processLog_none_of_wrong_amount (cfg : MonitorConfig) (gw : Gateway)
    (log : RawLog) (t : DecodedTransfer) (hpt : parseTransferEvent log = some t)
    (hne : t.value ≠ cfg.targetAmount) : processLog cfg gw log = none := by
  unfold processLog
  cases htx : log.transactionHash with
  | none => rfl
  | some h =>
    cases hbn : log.blockNumber with
    | none => rfl
    | some b => simp [hpt, hne]

/-!
## Claim C1 — exact-amount filtering of the scan
-/

/-- C1: for every log returned by the gateway over `[startBlock, endBlock]`,
`scanBlocksForTransfers` includes one record per log exactly when the log
decodes to the 3-topic transfer shape, its decoded value equals the target
amount exactly, and its transaction/receipt/block enrichment succeeds; a log
whose decoded value differs from the target amount is excluded. -/
theorem scan_includes_iff_exact_amount (cfg : MonitorConfig) (gw : Gateway)
    (startBlock endBlock : Nat) (logs : List RawLog)
    (hlogs : gw.getPastLogs startBlock endBlock = some logs) :
    scanBlocksForTransfers cfg gw startBlock endBlock
        = logs.filterMap (processLog cfg gw) ∧
    (∀ log ∈ logs,
      ((processLog cfg gw log).isSome ↔
        ((∃ t, parseTransferEvent log = some t ∧ t.value = cfg.targetAmount)
          ∧ enrichmentOk gw log)) ∧
      (∀ t, parseTransferEvent log = some t → t.value ≠ cfg.targetAmount →
        processLog cfg gw log = none)) := by
  refine ⟨?_, ?_⟩
  · unfold scanBlocksForTransfers
    rw [hlogs]
    simpa using scanLoop_eq_filterMap cfg gw logs []
  · intro log _
    exact ⟨processLog_isSome_iff cfg gw log,
      fun t hpt hne => processLog_none_of_wrong_amount cfg gw log t hpt hne⟩

/-- C1 witness: the example gateway's two logs (amount 5 matching, amount 6
not) instantiate the theorem; the scan keeps exactly the matching log's
record. -/
theorem scan_includes_iff_exact_amount_witness :
    exGateway.getPastLogs 0 20 = some [exLogOk, exLogWrongAmount] ∧
    scanBlocksForTransfers exCfg exGateway 0 20
      = [exLogOk, exLogWrongAmount].filterMap (processLog exCfg exGateway) ∧
    (scanBlocksForTransfers exCfg exGateway 0 20).map (fun r => r.hash) = ["0xaaa"] :=
  ⟨rfl,
   (scan_includes_iff_exact_amount exCfg exGateway 0 20 [exLogOk, exLogWrongAmount] rfl).1,
   by decide⟩

/-!
## Claim C2 — cursor behaviour when the logs query fails
-/

/-- C2 counterexample: with the cursor at 10 and the chain at height 20, a
tick whose logs query fails still moves the cursor to 20 (not 10), and the
next tick at height 20 scans nothing — the failed window `[11, 20]` is
skipped, not retried.  This refutes the claim that the cursor is not
advanced past a failed window. -/
theorem failed_scan_advances_cursor_counterexample :
    exGatewayLogsFail.getPastLogs 11 20 = none ∧
    checkForNewTransfers exCfg exGatewayLogsFail (some 10) = ([], some 20) ∧
    (some 20 : Option Nat) ≠ some 10 ∧
    (pollStep (some 20) 20).2 = none := by
  refine ⟨rfl, by decide, by decide, by decide⟩

/-- C2 amended: when the gateway logs query for the tick's window fails, the
scan swallows the error and returns no records, and the poller still
advances the cursor to the current height, so the failed window is skipped
rather than retried. -/
theorem failed_scan_advances_cursor (cfg : MonitorConfig) (gw : Gateway)
    (last : Nat) (hlt : last < gw.currentBlock)
    (hfail : gw.getPastLogs (last + 1) gw.currentBlock = none) :
    checkForNewTransfers cfg gw (some last) = ([], some gw.currentBlock) := by
  have hle : ¬ (last + 1 > gw.currentBlock) := by omega
  unfold checkForNewTransfers scanBlocksForTransfers
  simp [hle, hfail]

/-- C2 amended witness: the failing gateway at cursor 10. -/
theorem failed_scan_advances_cursor_witness :
    10 < exGatewayLogsFail.currentBlock ∧
    checkForNewTransfers exCfg exGatewayLogsFail (some 10)
      = ([], some exGatewayLogsFail.currentBlock) :=
  ⟨by decide, failed_scan_advances_cursor exCfg exGatewayLogsFail 10 (by decide) rfl⟩

/-!
## Claim C3 — cursor monotonicity and window partitioning
-/

/-- Windows scanned by one `checkForNewTransfers` call, as `pollStep`
records them. -/
theorem pollStep_models_checkForNewTransfers (cfg : MonitorConfig)
    (gw : Gateway) (st : Option Nat) :
    (checkForNewTransfers cfg gw st).2 = (pollStep st gw.currentBlock).1 ∧
    (∀ a b, (pollStep st gw.currentBlock).2 = some (a, b) →
      (checkForNewTransfers cfg gw st).1 = scanBlocksForTransfers cfg gw a b) ∧
    ((pollStep st gw.currentBlock).2 = none →
      (checkForNewTransfers cfg gw st).1 = []) := by
  cases st with
  | none =>
      by_cases hc : gw.currentBlock - 100 > gw.currentBlock <;>
        simp [checkForNewTransfers, pollStep, hc]
  | some last =>
      by_cases hc : last + 1 > gw.currentBlock <;>
        simp [checkForNewTransfers, pollStep, hc]

/-- Invariant of the poll trace from a set cursor `c`: prefixing the
sentinel window `(0, c)`, the scanned windows chain contiguously, each
window is non-empty, and the final cursor is the last window's end. -/
theorem pollTrace_windows_inv :
    ∀ (hs : List Nat) (c : Nat),
      List.Chain' (fun w1 w2 => w2.1 = w1.2 + 1)
        ((0, c) :: (pollTrace (some c) hs).2) ∧
      (∀ w ∈ (pollTrace (some c) hs).2, w.1 ≤ w.2) ∧
      (pollTrace (some c) hs).1
        = (((0, c) :: (pollTrace (some c) hs).2).getLast?).map (fun w => w.2)
  | [], c => by simp [pollTrace]
  | h :: hs, c => by
      by_cases hc : c + 1 > h
      · have step : pollStep (some c) h = (some c, none) := by
          simp [pollStep, hc]
        have ih := pollTrace_windows_inv hs c
        simpa [pollTrace, step] using ih
      · have step : pollStep (some c) h = (some h, some (c + 1, h)) := by
          simp [pollStep, hc]
        have ih := pollTrace_windows_inv hs h
        obtain ⟨ihchain, ihle, ihlast⟩ := ih
        refine ⟨?_, ?_, ?_⟩
        · simp only [pollTrace, step]
          cases hws : (pollTrace (some h) hs).2 with
          | nil => simp
          | cons w ws =>
              rw [hws] at ihchain
              have h1 := (List.chain'_cons.mp ihchain).1
              have h2 := (List.chain'_cons.mp ihchain).2
              exact List.chain'_cons.mpr ⟨rfl,
                List.chain'_cons.mpr ⟨by simpa using h1, h2⟩⟩
        · intro w hw
          simp only [pollTrace, step] at hw
          rcases List.mem_cons.mp hw with h1 | h2
          · subst h1; simp; omega
          · exact ihle w h2
        · simp only [pollTrace, step]
          cases hws : (pollTrace (some h) hs).2 with
          | nil =>
              rw [hws] at ihlast
              simpa using ihlast
          | cons w ws =>
              rw [hws] at ihlast
              simpa [List.getLast?_cons_cons] using ihlast

/-- In a contiguous chain of non-empty windows, every later window lies
strictly after the head window. -/
theorem chain_windows_head_lt :
    ∀ (l : List (Nat × Nat)) (w : Nat × Nat),
      List.Chain' (fun w1 w2 => w2.1 = w1.2 + 1) (w :: l) →
      (∀ x ∈ l, x.1 ≤ x.2) → ∀ b ∈ l, w.2 < b.1
  | [], _, _, _, b, hb => by simp at hb
  | c :: l', w, hch, hle, b, hb => by
      have hlink := (List.chain'_cons.mp hch).1
      have hch' := (List.chain'_cons.mp hch).2
      rcases List.mem_cons.mp hb with h1 | h2
      · subst h1; omega
      · have hc2 := hle c (by simp)
        have := chain_windows_head_lt l' c hch' (fun x hx => hle x (by simp [hx])) b h2
        omega

/-- Contiguously chained non-empty windows are pairwise non-overlapping. -/
theorem chain_windows_pairwise :
    ∀ (l : List (Nat × Nat)),
      List.Chain' (fun w1 w2 => w2.1 = w1.2 + 1) l →
      (∀ x ∈ l, x.1 ≤ x.2) →
      List.Pairwise (fun w1 w2 => w1.2 < w2.1) l
  | [], _, _ => List.Pairwise.nil
  | w :: l', hch, hle => by
      refine List.pairwise_cons.mpr ⟨?_, ?_⟩
      · exact chain_windows_head_lt l' w hch (fun x hx => hle x (by simp [hx]))
      · exact chain_windows_pairwise l' (List.chain'_cons'.mp hch).2
          (fun x hx => hle x (by simp [hx]))

/-- C3: over any sequence of poll ticks with non-decreasing reported
heights, the scanned windows are contiguous, non-empty and pairwise
non-overlapping; a set cursor never decreases; and a tick whose height does
not exceed the cursor scans nothing and leaves the cursor unchanged. -/
theorem poller_windows_partition (hs : List Nat)
    (hmono : List.Chain' (· ≤ ·) hs) :
    List.Chain' (fun w1 w2 => w2.1 = w1.2 + 1) (pollTrace none hs).2 ∧
    (∀ w ∈ (pollTrace none hs).2, w.1 ≤ w.2) ∧
    List.Pairwise (fun w1 w2 => w1.2 < w2.1) (pollTrace none hs).2 ∧
    (∀ c h, h ≤ c → pollStep (some c) h = (some c, none)) ∧
    (∀ c h, ∃ c', (pollStep (some c) h).1 = some c' ∧ c ≤ c') ∧
    (∀ (cfg : MonitorConfig) (gw : Gateway) (last : Nat),
      gw.currentBlock ≤ last →
      checkForNewTransfers cfg gw (some last) = ([], some last)) := by
  have stale : ∀ (c h : Nat), h ≤ c → pollStep (some c) h = (some c, none) := by
    intro c h hle
    have : c + 1 > h := by omega
    simp [pollStep, this]
  have mono : ∀ (c h : Nat), ∃ c', (pollStep (some c) h).1 = some c' ∧ c ≤ c' := by
    intro c h
    by_cases hc : c + 1 > h
    · refine ⟨c, ?_, le_refl c⟩
      simp [pollStep, hc]
    · refine ⟨h, ?_, by omega⟩
      simp [pollStep, hc]
  have nopoll : ∀ (cfg : MonitorConfig) (gw : Gateway) (last : Nat),
      gw.currentBlock ≤ last →
      checkForNewTransfers cfg gw (some last) = ([], some last) := by
    intro cfg gw last hle
    have : last + 1 > gw.currentBlock := by omega
    simp [checkForNewTransfers, this]
  cases hs with
  | nil => exact ⟨by simp [pollTrace], by simp [pollTrace], by simp [pollTrace],
      stale, mono, nopoll⟩
  | cons h0 hs' =>
      have hguard : ¬ (h0 - 100 > h0) := by omega
      have step : pollStep none h0 = (some h0, some (h0 - 100, h0)) := by
        simp [pollStep, hguard]
      obtain ⟨ichain, ile, _⟩ := pollTrace_windows_inv hs' h0
      have hwins : (pollTrace none (h0 :: hs')).2
          = (h0 - 100, h0) :: (pollTrace (some h0) hs').2 := by
        simp [pollTrace, step]
      have hchain : List.Chain' (fun w1 w2 => w2.1 = w1.2 + 1)
          ((h0 - 100, h0) :: (pollTrace (some h0) hs').2) := by
        cases hws : (pollTrace (some h0) hs').2 with
        | nil => simp
        | cons w ws =>
            rw [hws] at ichain
            exact List.chain'_cons.mpr ⟨by simpa using (List.chain'_cons.mp ichain).1,
              (List.chain'_cons.mp ichain).2⟩
      have hle : ∀ w ∈ (h0 - 100, h0) :: (pollTrace (some h0) hs').2, w.1 ≤ w.2 := by
        intro w hw
        rcases List.mem_cons.mp hw with h1 | h2
        · subst h1; simp
        · exact ile w h2
      rw [hwins]
      exact ⟨hchain, hle, chain_windows_pairwise _ hchain hle, stale, mono, nopoll⟩

/-- C3 witness: heights 5, 5, 7, 10 give the windows (0,5), (6,7), (8,10). -/
theorem poller_windows_partition_witness :
    List.Chain' (· ≤ ·) [5, 5, 7, 10] ∧
    (pollTrace none [5, 5, 7, 10]).2 = [(0, 5), (6, 7), (8, 10)] ∧
    List.Pairwise (fun w1 w2 => w1.2 < w2.1) (pollTrace none [5, 5, 7, 10]).2 :=
  ⟨by simp [List.chain'_cons], by decide,
    (poller_windows_partition [5, 5, 7, 10] (by simp [List.chain'_cons])).2.2.1⟩

/-!
## Claim C4 — idempotent insert
-/

theorem rowCountForHash_append (s1 s2 : Store) (h : String) :
    rowCountForHash (s1 ++ s2) h = rowCountForHash s1 h + rowCountForHash s2 h := by
  simp [rowCountForHash, List.filter_append]

theorem rowCountForHash_eq_zero_of_not_exists (s : Store) (h : String)
    (hf : transferExists s h = false) : rowCountForHash s h = 0 := by
  simp only [transferExists, List.any_eq_false, decide_eq_true_eq] at hf
  simp only [rowCountForHash, List.length_eq_zero, List.filter_eq_nil_iff]
  intro r hr
  simpa using hf r hr

theorem transferExists_insert (s : Store) (t : TokenTransfer) :
    transferExists (storeTransferIfNew s t) t.hash = true := by
  by_cases hex : transferExists s t.hash
  · simp [storeTransferIfNew, hex]
  · simp only [storeTransferIfNew, hex, if_neg, Bool.false_eq_true, if_false]
    simp [transferExists, rowOfTransfer]

/-- C4: inserting the same record twice through the store's insert path
(`bot.ts`: `transferExists` check then `addTransfer`) leaves exactly one row
for its transaction hash, and the duplicate attempt is a no-op success —
while a bare `addTransfer` `INSERT` of the duplicate would raise the
`UNIQUE` constraint error that the check-then-skip path avoids. -/
theorem insert_same_transfer_idempotent (s : Store) (t : TokenTransfer)
    (hone : rowCountForHash s t.hash ≤ 1) :
    rowCountForHash (storeTransferIfNew (storeTransferIfNew s t) t) t.hash = 1 ∧
    storeTransferIfNew (storeTransferIfNew s t) t = storeTransferIfNew s t ∧
    addTransfer (storeTransferIfNew s t) t
      = .error "UNIQUE constraint failed: token_transfers.tx_hash" := by
  have hex2 := transferExists_insert s t
  have hnoopAux : ∀ u : Store, transferExists u t.hash = true →
      storeTransferIfNew u t = u := by
    intro u hu
    simp [storeTransferIfNew, hu]
  have hnoop := hnoopAux (storeTransferIfNew s t) hex2
  refine ⟨?_, hnoop, ?_⟩
  · rw [hnoop]
    by_cases hex : transferExists s t.hash
    · have hpos : 0 < rowCountForHash s t.hash := by
        simp only [transferExists, List.any_eq_true, decide_eq_true_eq] at hex
        obtain ⟨r, hr, hrh⟩ := hex
        have : r ∈ s.filter (fun r => r.txHash = t.hash) := by
          simp [List.mem_filter, hr, hrh]
        calc 0 < 1 := Nat.one_pos
          _ ≤ (s.filter (fun r => r.txHash = t.hash)).length :=
            List.length_pos.mpr (fun hnil => by simp [hnil] at this)
      have : storeTransferIfNew s t = s := by simp [storeTransferIfNew, hex]
      rw [this]
      omega
    · have h0 : rowCountForHash s t.hash = 0 :=
        rowCountForHash_eq_zero_of_not_exists s t.hash (by simpa using hex)
      have : storeTransferIfNew s t = s ++ [rowOfTransfer t] := by
        simp [storeTransferIfNew, hex]
      rw [this, rowCountForHash_append, h0]
      simp [rowCountForHash, rowOfTransfer]
  · simp [addTransfer, hex2]

/-- C4 witness: the empty store and the example transfer. -/
theorem insert_same_transfer_idempotent_witness :
    rowCountForHash ([] : Store) exTransfer.hash ≤ 1 ∧
    rowCountForHash
      (storeTransferIfNew (storeTransferIfNew [] exTransfer) exTransfer)
      exTransfer.hash = 1 :=
  ⟨by decide, (insert_same_transfer_idempotent [] exTransfer (by decide)).1⟩

/-!
## Claim C5 — dense ranking of burners
-/

theorem find?_on_counts (f : String → Nat) :
    ∀ (l : List String) (b : String), b ∈ l →
      (l.map (fun a => (a, f a))).find? (fun p => p.1 = b) = some (b, f b)
  | [], b, hb => by cases hb
  | x :: xs, b, hb => by
      by_cases hx : x = b
      · subst hx; simp [List.find?]
      · have hb' : b ∈ xs := by
          rcases List.mem_cons.mp hb with h1 | h2
          · exact absurd h1.symm hx
          · exact h2
        simpa [List.find?, hx] using find?_on_counts f xs b hb'

theorem filter_counts_length (l : List String) (f : String → Nat) (c : Nat) :
    ((l.map (fun a => (a, f a))).filter (fun q => c < q.2)).length
      = (l.filter (fun a => c < f a)).length := by
  rw [List.filter_map, List.length_map]
  rfl

theorem mem_distinctBurners (s : Store) (b : String)
    (hb : ∃ r ∈ s, r.burnerAddress = some b) : b ∈ distinctBurners s := by
  obtain ⟨r, hr, hrb⟩ := hb
  exact List.mem_dedup.mpr (List.mem_filterMap.mpr ⟨r, hr, hrb⟩)

/-- C5 counterexample: with counts A:2, B:2, C:1 the code reports
rank(C) = 3, not the rank 2 that dense ranking (and the claim) predicts:
the rank formula counts distinct initiators with a greater count, so ties
make the next rank skip (competition ranking, not dense ranking). -/
theorem burner_rank_dense_counterexample :
    burnerCount exRowsTie "A" = 2 ∧ burnerCount exRowsTie "B" = 2 ∧
    burnerCount exRowsTie "C" = 1 ∧
    getBurnerStats exRowsTie "A" = (2, 1, 3) ∧
    getBurnerStats exRowsTie "B" = (2, 1, 3) ∧
    getBurnerStats exRowsTie "C" = (1, 3, 3) ∧ (3 : Nat) ≠ 2 := by
  refine ⟨by decide, by decide, by decide, by decide, by decide, by decide, by decide⟩

/-- C5 amended: for any initiator present in the store, the reported rank is
one plus the number of distinct initiators with a strictly greater record
count — competition ranking: initiators with equal counts share the same
rank, but the next distinct count's rank skips by the number of tied
initiators (so counts A:3, B:2, C:1 give ranks 1, 2, 3, while counts
A:2, B:2, C:1 give rank(A) = rank(B) = 1 and rank(C) = 3, not 2) — and the
reported total is the number of distinct non-null initiators. -/
theorem burner_rank_competition (s : Store) (b : String)
    (hb : ∃ r ∈ s, r.burnerAddress = some b) :
    getBurnerRank s b
      = 1 + ((distinctBurners s).filter
          (fun a => burnerCount s b < burnerCount s a)).length ∧
    getTotalBurners s = (distinctBurners s).length ∧
    (∀ b', (∃ r ∈ s, r.burnerAddress = some b') →
      burnerCount s b' = burnerCount s b →
      getBurnerRank s b' = getBurnerRank s b) := by
  have hrank : ∀ c, (∃ r ∈ s, r.burnerAddress = some c) →
      getBurnerRank s c
        = 1 + ((distinctBurners s).filter
            (fun a => burnerCount s c < burnerCount s a)).length := by
    intro c hc
    simp only [getBurnerRank, burnerCounts,
      find?_on_counts (burnerCount s) (distinctBurners s) c (mem_distinctBurners s c hc),
      filter_counts_length]
    omega
  refine ⟨hrank b hb, rfl, ?_⟩
  intro b' hb' hcnt
  rw [hrank b hb, hrank b' hb', hcnt]

/-- C5 amended witness: counts A:3, B:2, C:1 give ranks 1, 2, 3 with 3
distinct burners, and the tied store instantiates the rank formula. -/
theorem burner_rank_competition_witness :
    (∃ r ∈ exRowsTie, r.burnerAddress = some "A") ∧
    getBurnerRank exRowsTie "A"
      = 1 + ((distinctBurners exRowsTie).filter
          (fun a => burnerCount exRowsTie "A" < burnerCount exRowsTie a)).length ∧
    getBurnerStats exRowsDense "A" = (3, 1, 3) ∧
    getBurnerStats exRowsDense "B" = (2, 2, 3) ∧
    getBurnerStats exRowsDense "C" = (1, 3, 3) :=
  ⟨by decide, (burner_rank_competition exRowsTie "A" (by decide)).1,
   by decide, by decide, by decide⟩

/-!
## Claim C6 — average time between transfers
-/

theorem sumConsecutiveDiffs_eq_zipWith :
    ∀ l : List Int,
      sumConsecutiveDiffs l = (List.zipWith (fun a b => b - a) l l.tail).sum
  | [] => rfl
  | [_] => rfl
  | a :: b :: rest => by
      simp [sumConsecutiveDiffs, sumConsecutiveDiffs_eq_zipWith (b :: rest)]

/-- C6: with fewer than two records the average is unavailable (`none`,
never 0 and never an exception — the function is total); with at least two
records it is the arithmetic mean of the consecutive timestamp deltas of the
records ordered by block height, in milliseconds. -/
theorem average_gap_is_mean_of_deltas (s : Store) :
    (s.length < 2 → getAverageTimeBetweenTransfers s = none) ∧
    (2 ≤ s.length →
      getAverageTimeBetweenTransfers s
        = some ((((List.zipWith (fun a b : ℤ => b - a)
            ((sortByBlock s).map (fun r => r.timestamp))
            (((sortByBlock s).map (fun r => r.timestamp)).tail)).sum : ℤ) : ℚ)
          / ((s.length : ℚ) - 1))) := by
  have hlen : ((sortByBlock s).map (fun r => r.timestamp)).length = s.length := by
    simp [sortByBlock, (List.perm_insertionSort _ s).length_eq]
  constructor
  · intro h2
    unfold getAverageTimeBetweenTransfers
    simp only [hlen]
    simp [h2]
  · intro h2
    unfold getAverageTimeBetweenTransfers
    simp only [hlen]
    have : ¬ (s.length < 2) := by omega
    simp only [this, if_false]
    rw [sumConsecutiveDiffs_eq_zipWith]

/-- C6 witness: records at t = 0h, 24h, 72h in block order average to
exactly 129600000 ms (36 hours). -/
theorem average_gap_is_mean_of_deltas_witness :
    2 ≤ exRowsAvg.length ∧
    getAverageTimeBetweenTransfers exRowsAvg = some (129600000 : ℚ) := by
  refine ⟨by decide, ?_⟩
  have hs : (sortByBlock exRowsAvg).map (fun r => r.timestamp)
      = [0, 86400000, 259200000] := by decide
  have h := (average_gap_is_mean_of_deltas exRowsAvg).2 (by decide)
  rw [hs] at h
  rw [h]
  norm_num [exRowsAvg, mkRow, List.zipWith]

/-!
## Claim C8 — previous-record lookup
-/

theorem rowLexLe_refl (a : DbRow) : rowLexLe a a := by
  unfold rowLexLe; omega

theorem rowLexLe_of_lt {a b : DbRow} (h : rowLexLt a b) : rowLexLe a b := by
  unfold rowLexLt at h; unfold rowLexLe; omega

theorem rowLexLe_of_not_lt {a b : DbRow} (h : ¬ rowLexLt a b) : rowLexLe b a := by
  unfold rowLexLt at h; unfold rowLexLe; omega

theorem rowLexLe_trans {a b c : DbRow} (h1 : rowLexLe a b) (h2 : rowLexLe b c) :
    rowLexLe a c := by
  unfold rowLexLe at h1 h2 ⊢; omega

theorem not_rowLexLt_self (a : DbRow) : ¬ rowLexLt a a := by
  unfold rowLexLt; omega

theorem find?_hash_of_nodup :
    ∀ (s : Store) (r : DbRow),
      (s.map (fun x => x.txHash)).Nodup → r ∈ s →
      s.find? (fun x => x.txHash = r.txHash) = some r
  | [], r, _, hr => by cases hr
  | x :: xs, r, hnd, hr => by
      have hnd' : (∀ y ∈ xs, ¬ y.txHash = x.txHash)
          ∧ (xs.map (fun x => x.txHash)).Nodup := by simpa using hnd
      rcases List.mem_cons.mp hr with h1 | h2
      · subst h1; simp [List.find?]
      · have hx : x.txHash ≠ r.txHash := fun he => hnd'.1 r h2 he.symm
        simpa [List.find?, hx] using find?_hash_of_nodup xs r hnd'.2 h2

theorem eq_of_hash_eq_of_nodup :
    ∀ (s : Store), (s.map (fun x => x.txHash)).Nodup →
      ∀ q ∈ s, ∀ r ∈ s, q.txHash = r.txHash → q = r
  | [], _, q, hq, _, _, _ => by cases hq
  | x :: xs, hnd, q, hq, r, hr, he => by
      have hnd' : (∀ y ∈ xs, ¬ y.txHash = x.txHash)
          ∧ (xs.map (fun x => x.txHash)).Nodup := by simpa using hnd
      rcases List.mem_cons.mp hq with hq1 | hq2 <;>
        rcases List.mem_cons.mp hr with hr1 | hr2
      · rw [hq1, hr1]
      · have hxr : x.txHash = r.txHash := by rw [← hq1]; exact he
        exact absurd hxr.symm (hnd'.1 r hr2)
      · have hqx : q.txHash = x.txHash := by rw [← hr1]; exact he
        exact absurd hqx (hnd'.1 q hq2)
      · exact eq_of_hash_eq_of_nodup xs hnd'.2 q hq2 r hr2 he

theorem selectNewest_eq_none_iff :
    ∀ l : List DbRow, selectNewest l = none ↔ l = []
  | [] => by simp [selectNewest]
  | r :: rs => by
      cases h : selectNewest rs <;> simp only [selectNewest, h] <;>
        [simp; split <;> simp]

theorem selectNewest_spec :
    ∀ (l : List DbRow) (m : DbRow), selectNewest l = some m →
      m ∈ l ∧ ∀ q ∈ l, rowLexLe q m
  | [], m, h => by simp [selectNewest] at h
  | r :: rs, m, h => by
      cases hrs : selectNewest rs with
      | none =>
          have hnil : rs = [] := (selectNewest_eq_none_iff rs).mp hrs
          subst hnil
          simp only [selectNewest] at h
          obtain rfl : r = m := by simpa using h
          refine ⟨by simp, ?_⟩
          intro q hq
          have : q = r := by simpa using hq
          subst this
          exact rowLexLe_refl q
      | some m' =>
          have ih := selectNewest_spec rs m' hrs
          simp only [selectNewest, hrs] at h
          by_cases hlt : rowLexLt r m'
          · rw [if_pos hlt] at h
            obtain rfl : m' = m := by simpa using h
            refine ⟨List.mem_cons_of_mem r ih.1, ?_⟩
            intro q hq
            rcases List.mem_cons.mp hq with h1 | h2
            · exact h1 ▸ rowLexLe_of_lt hlt
            · exact ih.2 q h2
          · rw [if_neg hlt] at h
            obtain rfl : r = m := by simpa using h
            refine ⟨List.mem_cons_self r rs, ?_⟩
            intro q hq
            rcases List.mem_cons.mp hq with h1 | h2
            · exact h1 ▸ rowLexLe_refl r
            · exact rowLexLe_trans (ih.2 q h2) (rowLexLe_of_not_lt hlt)

/-- C8: for every stored record `r` (hashes unique), the previous-record
lookup keyed on `r`'s hash and timestamp returns `none` exactly when no
stored record strictly precedes `r` in the composite `(blockHeight,
timestamp)` order, and otherwise returns the timestamp of a strictly
preceding record that is maximal in that order (with `r`'s own height and
timestamp as the comparison pivot). -/
theorem previous_transfer_lookup (s : Store) (r : DbRow)
    (hnd : (s.map (fun x => x.txHash)).Nodup) (hr : r ∈ s) :
    (getPreviousTransferTimestamp s r.txHash r.timestamp = none ↔
      ∀ q ∈ s, ¬ rowLexLt q r) ∧
    (∀ t, getPreviousTransferTimestamp s r.txHash r.timestamp = some t →
      ∃ q ∈ s, rowLexLt q r ∧ q.timestamp = t ∧
        ∀ p ∈ s, rowLexLt p r → rowLexLe p q) := by
  have hfind := find?_hash_of_nodup s r hnd hr
  have hfiltereq : s.filter (fun x =>
        x.txHash ≠ r.txHash ∧
          (x.blockNumber < r.blockNumber ∨
            (x.blockNumber = r.blockNumber ∧ x.timestamp < r.timestamp)))
      = s.filter (fun x => rowLexLt x r) := by
    refine List.filter_congr ?_
    intro x hx
    simp only [decide_eq_decide]
    by_cases hhash : x.txHash = r.txHash
    · have hxr : x = r := eq_of_hash_eq_of_nodup s hnd x hx r hr hhash
      subst hxr
      constructor
      · rintro ⟨hne, _⟩
        exact absurd rfl hne
      · intro h
        exact absurd h (not_rowLexLt_self x)
    · simp [rowLexLt, hhash]
  unfold getPreviousTransferTimestamp
  rw [hfind]
  simp only [hfiltereq]
  constructor
  · simp only [Option.map_eq_none', selectNewest_eq_none_iff,
      List.filter_eq_nil_iff, decide_eq_true_eq]
  · intro t ht
    rw [Option.map_eq_some'] at ht
    obtain ⟨m, hm, hmt⟩ := ht
    have hspec := selectNewest_spec _ m hm
    have hmmem := List.mem_filter.mp hspec.1
    refine ⟨m, hmmem.1, by simpa using hmmem.2, hmt, ?_⟩
    intro p hp hpr
    exact hspec.2 p (List.mem_filter.mpr ⟨hp, by simpa using hpr⟩)

/-- C8 witness: in a store where two rows share block 5 and two rows share
timestamp 2000, the predecessor of the (block 5, t 2500) row is the
(block 5, t 2000) row. -/
theorem previous_transfer_lookup_witness :
    (exRowsPrev.map (fun x => x.txHash)).Nodup ∧
    getPreviousTransferTimestamp exRowsPrev "0xp3" 2500 = some 2000 ∧
    (∃ q ∈ exRowsPrev, rowLexLt q (mkRow "0xp3" 5 (some "A") 2500) ∧
      q.timestamp = 2000 ∧
      ∀ p ∈ exRowsPrev, rowLexLt p (mkRow "0xp3" 5 (some "A") 2500) →
        rowLexLe p q) :=
  ⟨by decide, by decide,
    (previous_transfer_lookup exRowsPrev (mkRow "0xp3" 5 (some "A") 2500)
      (by decide) (by decide)).2 2000 (by decide)⟩

/-!
## Claim C7 — daily moving-average series
-/

theorem consecutiveDiffs_length :
    ∀ l : List Int, (consecutiveDiffs l).length = l.length - 1
  | [] => rfl
  | [_] => rfl
  | a :: b :: rest => by
      have := consecutiveDiffs_length (b :: rest)
      simp only [consecutiveDiffs, List.length_cons] at this ⊢
      omega

/-- Every entry the day loop emits carries the per-day value of its date,
and its day does not extend past `today`. -/
theorem dailyLoop_spec (transfers : List Int) (today startDate : Int) :
    ∀ (n : Nat) (i : Int) (e : Int × Option ℚ),
      e ∈ dailyLoop transfers today startDate n i →
      e.2 = dayEntry transfers e.1 ∧ endOfDayOf e.1 ≤ today
  | 0, i, e, he => by simp [dailyLoop] at he
  | n + 1, i, e, he => by
      simp only [dailyLoop] at he
      by_cases hbreak : endOfDayOf (startDate + i * msPerDay) > today
      · rw [if_pos hbreak] at he
        simp at he
      · rw [if_neg hbreak] at he
        rcases List.mem_cons.mp he with h1 | h2
        · subst h1
          refine ⟨rfl, ?_⟩
          show endOfDayOf (startDate + i * msPerDay) ≤ today
          omega
        · exact dailyLoop_spec transfers today startDate n (i + 1) e h2

/-- C7 amended: every emitted day `d` of the series satisfies: its value is
the per-day value `dayEntry`; the day does not extend past today; with
fewer than two records at or before end-of-day `d` the value is unavailable;
otherwise the records considered are exactly those in the trailing window
`[startOfDay (end-of-day d − 7 days), end-of-day d]` — eight calendar days,
the code's "7-day window" truncated to the start of day `d − 7` — with the
value unavailable if fewer than two remain and otherwise the average
consecutive gap of that windowed subset, in hours. -/
theorem daily_series_characterised (transfers : List Int) (now maxDays : Int) :
    ∀ e ∈ getDaily7DayMovingAverage transfers now maxDays,
      e.2 = dayEntry transfers e.1 ∧
      endOfDayOf e.1 ≤ endOfDayOf now ∧
      ((transfers.filter (fun t => t ≤ endOfDayOf e.1)).length < 2 → e.2 = none) ∧
      (¬ (transfers.filter (fun t => t ≤ endOfDayOf e.1)).length < 2 →
        ((transfers.filter (fun t => t ≤ endOfDayOf e.1)).filter
            (fun t => startOfDay (endOfDayOf e.1 - 7 * msPerDay) ≤ t)).length < 2 →
          e.2 = none) ∧
      (¬ (transfers.filter (fun t => t ≤ endOfDayOf e.1)).length < 2 →
        ∀ w, w = (transfers.filter (fun t => t ≤ endOfDayOf e.1)).filter
            (fun t => startOfDay (endOfDayOf e.1 - 7 * msPerDay) ≤ t) →
          ¬ w.length < 2 →
          e.2 = some ((((consecutiveDiffs w).sum : ℚ)
            / ((consecutiveDiffs w).length : ℚ)) / (msPerHour : ℚ))) := by
  intro e he
  simp only [getDaily7DayMovingAverage] at he
  split at he
  · simp at he
  · split at he
    · simp at he
    · obtain ⟨hval, htoday⟩ := dailyLoop_spec transfers (endOfDayOf now) _ _ _ e he
      refine ⟨hval, htoday, ?_, ?_, ?_⟩
      · intro hup
        rw [hval]
        simp only [dayEntry]
        rw [if_pos hup]
      · intro hup hwin
        rw [hval]
        simp only [dayEntry]
        rw [if_neg hup, if_pos hwin]
      · intro hup w hw hwlen
        rw [hval]
        simp only [dayEntry]
        rw [← hw]
        rw [if_neg hup, if_neg hwlen]
        have hne : ¬ ((consecutiveDiffs w).length = 0) := by
          rw [consecutiveDiffs_length]
          omega
        rw [if_neg hne]

/-- C7 amended witness: with records on day 0 and day 7 and `now` inside
day 7, day 0 is emitted with an unavailable value. -/
theorem daily_series_characterised_witness :
    (0, (none : Option ℚ)) ∈ getDaily7DayMovingAverage exDailyTs exDailyNow 30 ∧
    ((0 : Int), (none : Option ℚ)).2 = dayEntry exDailyTs 0 :=
  ⟨by decide,
    (daily_series_characterised exDailyTs exDailyNow 30 (0, none) (by decide)).1⟩

/-- C7 counterexample: the last emitted day (day 7, date 604800000 ms) has
an available value, although only one record lies within the genuine
trailing 7-day window ending at its end-of-day (the day-0 record is 7.5 days
back but inside the code's window), so the claim's "trailing 7-day window"
value — unavailable — differs from the emitted one. -/
theorem daily_series_window_counterexample :
    ((getDaily7DayMovingAverage exDailyTs exDailyNow 30).getLast?.map Prod.fst)
      = some 604800000 ∧
    ((getDaily7DayMovingAverage exDailyTs exDailyNow 30).getLast?.map
      (fun e => e.2.isSome)) = some true ∧
    (dayEntry exDailyTs 604800000).isSome = true ∧
    specDayEntry exDailyTs 604800000 = none := by
  refine ⟨by decide, by decide, by decide, by decide⟩

/-!
## Claims C9 and C10 — the historical locator's binary search
-/

theorem fdiv_two_bounds (low high : Int) (h : low ≤ high) :
    low ≤ (low + high).fdiv 2 ∧ (low + high).fdiv 2 ≤ high := by
  rw [Int.fdiv_eq_ediv _ (by norm_num)]
  omega

theorem fdiv_twelve_mono {a b : Int} (h : a ≤ b) : a.fdiv 12 ≤ b.fdiv 12 := by
  rw [Int.fdiv_eq_ediv _ (by norm_num), Int.fdiv_eq_ediv _ (by norm_num)]
  omega

/-- If every probe fails, the search walks its whole window and returns the
incoming best block — it completes instead of aborting. -/
theorem searchGo_all_fail (env : LocatorEnv) (target est : Int)
    (hall : ∀ m : Int, env m = none) :
    ∀ (fuel : Nat) (low high best : Int),
      searchGo env target est fuel low high best = best := by
  intro fuel
  induction fuel with
  | zero => intro low high best; rfl
  | succ fuel ih =>
      intro low high best
      by_cases hlh : low ≤ high
      · simp only [searchGo, if_pos hlh, hall]
        split
        · exact ih _ _ _
        · exact ih _ _ _
      · simp [searchGo, hlh]

/-- If every block in the window has a timestamp below the target, the
search returns the incoming best block unchanged. -/
theorem searchGo_all_below (env : LocatorEnv) (target est : Int) (ts : Int → Int) :
    ∀ (fuel : Nat) (low high best : Int),
      (high + 1 - low).toNat ≤ fuel →
      (∀ h : Int, low ≤ h → h ≤ high → env h = some (ts h)) →
      (∀ h : Int, low ≤ h → h ≤ high → ts h < target) →
      searchGo env target est fuel low high best = best := by
  intro fuel
  induction fuel with
  | zero => intro low high best _ _ _; rfl
  | succ fuel ih =>
      intro low high best hfuel hprobe hbelow
      by_cases hlh : low ≤ high
      · have hmid := fdiv_two_bounds low high hlh
        have hp := hprobe _ hmid.1 hmid.2
        have hb := hbelow _ hmid.1 hmid.2
        simp only [searchGo, if_pos hlh, hp]
        rw [if_neg (by omega)]
        exact ih ((low + high).fdiv 2 + 1) high best (by omega)
          (fun h h1 h2 => hprobe h (by omega) h2)
          (fun h h1 h2 => hbelow h (by omega) h2)
      · simp [searchGo, hlh]

/-- Lower-bound correctness of the binary search: with non-decreasing block
timestamps, succeeding probes over the window, and the least
target-satisfying height `L` inside the window, the loop returns
`max low L`. -/
theorem searchGo_least (env : LocatorEnv) (target est : Int) (ts : Int → Int)
    (L : Int)
    (hmono : ∀ h1 h2 : Int, h1 ≤ h2 → ts h1 ≤ ts h2)
    (hLsat : target ≤ ts L)
    (hLleast : ∀ h : Int, h < L → ts h < target) :
    ∀ (fuel : Nat) (low high best : Int),
      (high + 1 - low).toNat ≤ fuel →
      (∀ h : Int, low ≤ h → h ≤ high → env h = some (ts h)) →
      low ≤ high → L ≤ high →
      searchGo env target est fuel low high best = max low L := by
  intro fuel
  induction fuel with
  | zero =>
      intro low high best hfuel _ hlh _
      exfalso
      omega
  | succ fuel ih =>
      intro low high best hfuel hprobe hlh hLh
      have hmid := fdiv_two_bounds low high hlh
      have hp := hprobe _ hmid.1 hmid.2
      simp only [searchGo, if_pos hlh, hp]
      by_cases hsat : ts ((low + high).fdiv 2) ≥ target
      · rw [if_pos hsat]
        have hLmid : L ≤ (low + high).fdiv 2 := by
          by_contra hx
          push_neg at hx
          have := hLleast _ hx
          omega
        by_cases hr1 : L ≤ (low + high).fdiv 2 - 1
        · by_cases hr2 : low ≤ (low + high).fdiv 2 - 1
          · rw [ih low ((low + high).fdiv 2 - 1) ((low + high).fdiv 2) (by omega)
              (fun h h1 h2 => hprobe h h1 (by omega)) hr2 hr1]
          · rw [searchGo_all_below env target est ts fuel low
              ((low + high).fdiv 2 - 1) ((low + high).fdiv 2) (by omega)
              (fun h h1 h2 => hprobe h h1 (by omega))
              (fun h h1 h2 => by exfalso; omega)]
            omega
        · rw [searchGo_all_below env target est ts fuel low
            ((low + high).fdiv 2 - 1) ((low + high).fdiv 2) (by omega)
            (fun h h1 h2 => hprobe h h1 (by omega))
            (fun h h1 h2 => hLleast h (by omega))]
          omega
      · rw [if_neg hsat]
        have hmidL : (low + high).fdiv 2 < L := by
          by_contra hx
          push_neg at hx
          have := hmono L _ hx
          omega
        rw [ih ((low + high).fdiv 2 + 1) high best (by omega)
          (fun h h1 h2 => hprobe h (by omega) h2) (by omega) hLh]
        omega

/-- `getBlockNumberForDate` in the non-fallback case: when the window's
probes succeed and the least satisfying height `L` lies inside the window,
the function returns `max low L`. -/
theorem getBlockNumberForDate_found (env : LocatorEnv) (currentBlock : Nat)
    (target : Int) (ts : Int → Int) (L : Int)
    (hcur : env (currentBlock : Int) = some (ts (currentBlock : Int)))
    (hmono : ∀ h1 h2 : Int, h1 ≤ h2 → ts h1 ≤ ts h2)
    (hLsat : target ≤ ts L)
    (hLleast : ∀ h : Int, h < L → ts h < target)
    (hprobe : ∀ h : Int,
      locatorLow currentBlock (ts (currentBlock : Int)) target ≤ h →
      h ≤ locatorHigh currentBlock (ts (currentBlock : Int)) target →
      env h = some (ts h))
    (hlh : locatorLow currentBlock (ts (currentBlock : Int)) target
      ≤ locatorHigh currentBlock (ts (currentBlock : Int)) target)
    (hLh : L ≤ locatorHigh currentBlock (ts (currentBlock : Int)) target) :
    getBlockNumberForDate env currentBlock target
      = some (max (locatorLow currentBlock (ts (currentBlock : Int)) target) L) := by
  unfold getBlockNumberForDate
  rw [hcur]
  simp only [locatorLow, locatorHigh, locatorEstimate] at hprobe hlh hLh ⊢
  exact congrArg some (searchGo_least env target _ ts L hmono hLsat hLleast _ _ _ _
    (le_refl _) hprobe hlh hLh)

/-- C10 counterexample: block timestamps are non-decreasing, yet for target
times 500 ≤ 2000 the locator returns height 500 and then height 0: the
target-2000 search window `[0, 1000]` (centred on its estimate 0) contains
no satisfying block, so the fallback returns the estimate, below the earlier
result. -/
theorem locator_monotone_counterexample :
    (∀ h1 h2 : Int, h1 ≤ h2 → exTsGap h1 ≤ exTsGap h2) ∧
    (∀ h : Int, 0 ≤ h → h ≤ 5000 → exEnvGap h = some (exTsGap h)) ∧
    getBlockNumberForDate exEnvGap 5000 500 = some 500 ∧
    getBlockNumberForDate exEnvGap 5000 2000 = some 0 ∧
    (500 : Int) ≤ 2000 ∧ ¬ ((500 : Int) ≤ 0) := by
  refine ⟨?_, ?_, by decide, by decide, by decide, by decide⟩
  · intro h1 h2 h
    unfold exTsGap
    split_ifs <;> omega
  · intro h h1 h2
    unfold exEnvGap
    rw [if_pos ⟨h1, h2⟩]

/-- C10 amended: the locator is monotone in the target time whenever both
searches run in the non-fallback regime — all probes in each window succeed
(against non-decreasing timestamps `ts`) and each target's least satisfying
height lies inside its window.  When a window contains no satisfying block
the fallback returns the raw estimate and monotonicity can fail
(`locator_monotone_counterexample`). -/
theorem locator_monotone_of_found (env : LocatorEnv) (currentBlock : Nat)
    (ts : Int → Int) (t1 t2 L1 L2 : Int)
    (hcur : env (currentBlock : Int) = some (ts (currentBlock : Int)))
    (hmono : ∀ h1 h2 : Int, h1 ≤ h2 → ts h1 ≤ ts h2)
    (h12 : t1 ≤ t2)
    (hL1sat : t1 ≤ ts L1) (hL1least : ∀ h : Int, h < L1 → ts h < t1)
    (hL2sat : t2 ≤ ts L2) (hL2least : ∀ h : Int, h < L2 → ts h < t2)
    (hprobe1 : ∀ h : Int,
      locatorLow currentBlock (ts (currentBlock : Int)) t1 ≤ h →
      h ≤ locatorHigh currentBlock (ts (currentBlock : Int)) t1 →
      env h = some (ts h))
    (hlh1 : locatorLow currentBlock (ts (currentBlock : Int)) t1
      ≤ locatorHigh currentBlock (ts (currentBlock : Int)) t1)
    (hL1h : L1 ≤ locatorHigh currentBlock (ts (currentBlock : Int)) t1)
    (hprobe2 : ∀ h : Int,
      locatorLow currentBlock (ts (currentBlock : Int)) t2 ≤ h →
      h ≤ locatorHigh currentBlock (ts (currentBlock : Int)) t2 →
      env h = some (ts h))
    (hlh2 : locatorLow currentBlock (ts (currentBlock : Int)) t2
      ≤ locatorHigh currentBlock (ts (currentBlock : Int)) t2)
    (hL2h : L2 ≤ locatorHigh currentBlock (ts (currentBlock : Int)) t2) :
    ∀ r1 r2, getBlockNumberForDate env currentBlock t1 = some r1 →
      getBlockNumberForDate env currentBlock t2 = some r2 → r1 ≤ r2 := by
  intro r1 r2 h1 h2
  rw [getBlockNumberForDate_found env currentBlock t1 ts L1 hcur hmono hL1sat
    hL1least hprobe1 hlh1 hL1h] at h1
  rw [getBlockNumberForDate_found env currentBlock t2 ts L2 hcur hmono hL2sat
    hL2least hprobe2 hlh2 hL2h] at h2
  obtain rfl : _ = r1 := Option.some_injective _ h1
  obtain rfl : _ = r2 := Option.some_injective _ h2
  have hest : locatorEstimate currentBlock (ts (currentBlock : Int)) t1
      ≤ locatorEstimate currentBlock (ts (currentBlock : Int)) t2 := by
    unfold locatorEstimate
    have := fdiv_twelve_mono (a := ts (currentBlock : Int) - t2)
      (b := ts (currentBlock : Int) - t1) (by omega)
    omega
  have hlow : locatorLow currentBlock (ts (currentBlock : Int)) t1
      ≤ locatorLow currentBlock (ts (currentBlock : Int)) t2 := by
    unfold locatorLow
    omega
  have hL12 : L1 ≤ L2 := by
    by_contra hx
    push_neg at hx
    have := hL1least L2 hx
    omega
  omega

/-- C10 amended witness: targets 3 and 5 over the chain with `ts h = h`
and current height 10 locate heights 3 and 5. -/
theorem locator_monotone_of_found_witness :
    getBlockNumberForDate exEnvTotal 10 3 = some 3 ∧
    getBlockNumberForDate exEnvTotal 10 5 = some 5 ∧
    (3 : Int) ≤ 5 :=
  ⟨by decide, by decide,
    locator_monotone_of_found exEnvTotal 10 (fun h => h) 3 5 3 5
      rfl (fun _ _ h => h) (by decide)
      (by decide) (fun _ hh => hh) (by decide) (fun _ hh => hh)
      (fun _ _ _ => rfl) (by decide) (by decide)
      (fun _ _ _ => rfl) (by decide) (by decide)
      3 5 (by decide) (by decide)⟩

/-- C9 counterexample: the first probe of the window `[0, 4]` (mid 2) fails
below the estimate 10, and the search advances the low bound rather than
retracting the high bound: the real loop then finds height 3, while the
spec's always-retract-high loop exhausts the window and keeps the incoming
best block 7. -/
theorem failed_probe_counterexample :
    exEnvMissing (((0 : Int) + 4).fdiv 2) = none ∧
    (((0 : Int) + 4).fdiv 2) < 10 ∧
    searchGo exEnvMissing 50 10 5 0 4 7 = 3 ∧
    specSearchGo exEnvMissing 50 5 0 4 7 = 7 ∧
    (3 : Int) ≠ 7 := by
  refine ⟨by decide, by decide, by decide, by decide, by decide⟩

/-- C9 amended: a failing probe is treated as "too high" (retract the high
bound to `mid - 1`) only when `mid` is at or above the initial estimate;
below the estimate it is treated as "too low" (advance the low bound to
`mid + 1`).  Either way the search continues without aborting: if every
probe fails it completes and returns the incoming best block. -/
theorem failed_probe_adjustment (env : LocatorEnv) (target est : Int)
    (fuel : Nat) (low high best : Int) (hlh : low ≤ high)
    (hfail : env ((low + high).fdiv 2) = none) :
    searchGo env target est (fuel + 1) low high best
      = (if (low + high).fdiv 2 < est
         then searchGo env target est fuel ((low + high).fdiv 2 + 1) high best
         else searchGo env target est fuel low ((low + high).fdiv 2 - 1) best) ∧
    (∀ (f : Nat) (l h b : Int), (∀ m : Int, env m = none) →
      searchGo env target est f l h b = b) := by
  constructor
  · simp only [searchGo, if_pos hlh, hfail]
  · intro f l h b hall
    exact searchGo_all_fail env target est hall f l h b

/-- C9 amended witness: the always-failing environment over the window
`[0, 4]`, with estimate 10 and best block 7. -/
theorem failed_probe_adjustment_witness :
    ((0 : Int) ≤ 4) ∧
    searchGo (fun _ => (none : Option Int)) 50 10 3 0 4 7
      = (if ((0 : Int) + 4).fdiv 2 < 10
         then searchGo (fun _ => (none : Option Int)) 50 10 2 (((0 : Int) + 4).fdiv 2 + 1) 4 7
         else searchGo (fun _ => (none : Option Int)) 50 10 2 0 (((0 : Int) + 4).fdiv 2 - 1) 7) :=
  ⟨by decide,
    (failed_probe_adjustment (fun _ => none) 50 10 2 0 4 7 (by decide) rfl).1⟩

end UniBurnBot
